import Mathlib

/-!
Shallow embedding of the SearchSmartly POI ingestion pipeline
(`poi/tasks.py`: `process_csv_chunk`, `process_json_file`, `process_xml_file`,
backed by the model in `poi/models/poi_model.py`).

Strings are lists of characters (`Str`).  Python's numeric strings are parsed
into exact rationals: the IEEE-754 doubles of the source are idealised as ℚ,
while the non-finite float values `inf`, `-inf` and `nan` — which Python's
`float()` happily produces from the spellings "inf"/"infinity"/"nan" — are
tracked explicitly by the `PyFloat` type.  (Python's `int()`/`float()` also
accept underscores between digits and non-ASCII decimal digits; those exotic
spellings are not modelled.)

The database table behind `PointOfInterest.objects.create` is a list of
`Stored` records; `external_id` is the `AutoField` primary key, modelled as
the row's insertion index.
-/

abbrev Str := List Char

def isWs (c : Char) : Bool :=
  c = ' ' || c = '\t' || c = '\n' || c = '\r' || c = '\x0b' || c = '\x0c'

/-- Leading/trailing-whitespace strip, as Python's `str.strip()` applied by
`int()` and `float()` to their string argument. -/
def stripWs (s : Str) : Str :=
  ((s.dropWhile isWs).reverse.dropWhile isWs).reverse

def isDigit (c : Char) : Bool := '0' ≤ c && c ≤ '9'

def digVal (c : Char) : Nat := c.toNat - '0'.toNat

def digitsNat (s : Str) : Nat := s.foldl (fun a c => 10 * a + digVal c) 0

def natOfDigits? (s : Str) : Option Nat :=
  if s ≠ [] ∧ s.all isDigit then some (digitsNat s) else none

/-- Optional sign followed by one or more decimal digits. -/
def signedDigits? (s : Str) : Option Int :=
  match s with
  | '+' :: ds => (natOfDigits? ds).map Int.ofNat
  | '-' :: ds => (natOfDigits? ds).map (fun n => -(n : Int))
  | ds => (natOfDigits? ds).map Int.ofNat

/-- Python `int(s)` for a string `s`: strip whitespace, optional sign, digits.
`none` models the `ValueError` raised on any other shape. -/
def pyInt (s : Str) : Option Int := signedDigits? (stripWs s)

/-- An exact, possibly unnormalised fraction.  Finite Python floats are
idealised as these (the operations of the pipeline — parsing, summation,
division by a length — all stay exact).  Every fraction the pipeline builds
has a nonzero denominator (`pyFloat_finite_den` below). -/
structure Frac where
  num : Int
  den : Nat
deriving DecidableEq, Repr

/-- The rational value of a fraction. -/
def Frac.val (f : Frac) : ℚ := (f.num : ℚ) / (f.den : ℚ)

def Frac.ofNat (n : Nat) : Frac := ⟨n, 1⟩

def Frac.ofInt (n : Int) : Frac := ⟨n, 1⟩

def Frac.neg (f : Frac) : Frac := ⟨-f.num, f.den⟩

def Frac.add (a b : Frac) : Frac :=
  ⟨a.num * (b.den : Int) + b.num * (a.den : Int), a.den * b.den⟩

/-- `f * 10^e` for an integer exponent. -/
def Frac.scale10 (f : Frac) (e : Int) : Frac :=
  match e with
  | .ofNat n => ⟨f.num * (10 : Int) ^ n, f.den⟩
  | .negSucc n => ⟨f.num, f.den * 10 ^ (n + 1)⟩

/-- A Python `float` value: an (idealised, exact) finite value, or one of
the non-finite values `inf`, `-inf`, `nan`. -/
inductive PyFloat where
  | finite (f : Frac)
  | pinf
  | ninf
  | nan
deriving DecidableEq, Repr

def PyFloat.isFinite : PyFloat → Bool
  | .finite _ => true
  | _ => false

/-- The rational value of a finite Python float. -/
def PyFloat.val? : PyFloat → Option ℚ
  | .finite f => some f.val
  | _ => none

/-- Python `+` on floats. -/
def PyFloat.add : PyFloat → PyFloat → PyFloat
  | .nan, _ => .nan
  | _, .nan => .nan
  | .pinf, .ninf => .nan
  | .ninf, .pinf => .nan
  | .pinf, _ => .pinf
  | _, .pinf => .pinf
  | .ninf, _ => .ninf
  | _, .ninf => .ninf
  | .finite a, .finite b => .finite (a.add b)

/-- Python `x / n` for a float `x` and a positive int `n` (the call sites
divide by a list length that is checked, or known, to be nonzero). -/
def PyFloat.divNat (x : PyFloat) (n : Nat) : PyFloat :=
  match x with
  | .finite f => .finite ⟨f.num, f.den * n⟩
  | .pinf => .pinf
  | .ninf => .ninf
  | .nan => .nan

/-- Python `sum(xs)` over a list of floats (initial accumulator `0`). -/
def pySumF (xs : List PyFloat) : PyFloat := xs.foldl PyFloat.add (.finite (Frac.ofNat 0))

def toLowerAscii (c : Char) : Char :=
  if 'A' ≤ c && c ≤ 'Z' then Char.ofNat (c.toNat + 32) else c

def lowerIs (s : Str) (t : Str) : Bool := s.map toLowerAscii == t

/-- Split a string at the first character satisfying `sep`, if any. -/
def splitOnce (sep : Char → Bool) : Str → Option (Str × Str)
  | [] => none
  | c :: rest =>
    if sep c then some ([], rest)
    else (splitOnce sep rest).map (fun pr => (c :: pr.1, pr.2))

/-- The mantissa of a Python float literal: `digits`, `digits.digits`,
`digits.` or `.digits` (at least one digit overall). -/
def parseMantissa (s : Str) : Option Frac :=
  match splitOnce (fun c => c = '.') s with
  | none => (natOfDigits? s).map Frac.ofNat
  | some (ip, fp) =>
    if (ip ++ fp) ≠ [] ∧ ip.all isDigit ∧ fp.all isDigit then
      some ⟨digitsNat (ip ++ fp), 10 ^ fp.length⟩
    else none

/-- A Python float literal body: mantissa with optional `e`/`E` exponent. -/
def parseNumber (s : Str) : Option Frac :=
  match splitOnce (fun c => c = 'e' || c = 'E') s with
  | none => parseMantissa s
  | some (m, ex) =>
    match parseMantissa m, signedDigits? ex with
    | some q, some e => some (q.scale10 e)
    | _, _ => none

/-- Leading-sign split: `(negative?, rest)`. -/
def splitSign (t : Str) : Bool × Str :=
  match t with
  | '+' :: r => (false, r)
  | '-' :: r => (true, r)
  | r => (false, r)

/-- Python `float(s)` for a string `s`: strip whitespace, optional sign, then
either a case-insensitive `inf`/`infinity`/`nan` or a decimal literal.
`none` models the `ValueError` raised on any other shape. -/
def pyFloat (s : Str) : Option PyFloat :=
  if lowerIs (splitSign (stripWs s)).2 "inf".data ||
      lowerIs (splitSign (stripWs s)).2 "infinity".data then
    some (if (splitSign (stripWs s)).1 then .ninf else .pinf)
  else if lowerIs (splitSign (stripWs s)).2 "nan".data then
    some .nan
  else
    (parseNumber (splitSign (stripWs s)).2).map
      (fun q => .finite (if (splitSign (stripWs s)).1 then q.neg else q))

/-! ## The tabular (CSV) path: `process_csv_chunk` in `poi/tasks.py` -/

def isBrace (c : Char) : Bool := c = '{' || c = '}'

/-- Python `s.strip(braces)` where `braces` holds the two brace characters:
removes leading and trailing braces. -/
def stripBraces (s : Str) : Str :=
  ((s.dropWhile isBrace).reverse.dropWhile isBrace).reverse

/-- Python `s.split(sep)` for a one-character separator `,`: always returns at
least one (possibly empty) piece. -/
def splitOnComma : Str → List Str
  | [] => [[]]
  | c :: rest =>
    if c = ',' then [] :: splitOnComma rest
    else
      match splitOnComma rest with
      | [] => [[c]]
      | h :: t => (c :: h) :: t

/-- The source's ratings-format guard
`ratings_str.startswith(brace) and ratings_str.endswith(brace)`:
it inspects only the first and the last character. -/
def bracesOk (s : Str) : Bool :=
  (s.head? == some '{') && (s.getLast? == some '}')

/-- The list comprehension `[float(r.strip(braces)) for r in parts]`
(generalised over the per-element preprocessing `f`); `none` models a
`ValueError` from any element. -/
def parseEach (f : Str → Str) : List Str → Option (List PyFloat)
  | [] => some []
  | p :: ps =>
    match pyFloat (f p), parseEach f ps with
    | some x, some xs => some (x :: xs)
    | _, _ => none

/-- Lines 56–60 of `poi/tasks.py`: the brace-delimiter check followed by
`[float(r.strip(braces)) for r in ratings_str.split(comma)]`. -/
def parseRatings (s : Str) : Option (List PyFloat) :=
  if bracesOk s then parseEach stripBraces (splitOnComma s) else none

/-- One CSV row, all cells read as raw strings (`dtype=str` in the source). -/
structure CsvRow where
  poi_id : Str
  poi_name : Str
  poi_category : Str
  poi_latitude : Str
  poi_longitude : Str
  poi_ratings : Str
deriving DecidableEq, Repr

/-- The fields of a persisted `PointOfInterest` row produced by the CSV path.
`internal_id` is kept as the parsed integer (the `CharField` stores its
decimal string, an injective image). -/
structure CsvPOI where
  internal_id : Int
  name : Str
  category : Str
  latitude : PyFloat
  longitude : PyFloat
  ratings : PyFloat
deriving DecidableEq, Repr

/-- A database row: `external_id` is the `AutoField` primary key, assigned
monotonically by the store at insertion time. -/
structure Stored (α : Type) where
  external_id : Nat
  record : α
deriving DecidableEq, Repr

/-- `PointOfInterest.objects.create(...)`: append a row, assigning the next
primary key. -/
def create {α : Type} (db : List (Stored α)) (p : α) : List (Stored α) :=
  db ++ [⟨db.length, p⟩]

abbrev CsvDB := List (Stored CsvPOI)

/-- The body of the per-row `try` block of `process_csv_chunk`
(lines 48–69 of `poi/tasks.py`): `int(poi_id)`, `float(latitude)`,
`float(longitude)`, the brace check, per-element `float`, mean, create.
`none` models any caught exception (the row is skipped). -/
def processCsvRow (row : CsvRow) : Option CsvPOI :=
  match pyInt row.poi_id, pyFloat row.poi_latitude, pyFloat row.poi_longitude,
      parseRatings row.poi_ratings with
  | some internal_id, some latitude, some longitude, some ratings =>
    some { internal_id := internal_id, name := row.poi_name,
           category := row.poi_category, latitude := latitude,
           longitude := longitude,
           ratings := (pySumF ratings).divNat ratings.length }
  | _, _, _, _ => none

/-- The per-row loop of `process_csv_chunk`: every exception is caught by the
row's `except` clauses (`continue`), so a failing row is skipped and the loop
moves on to the next row. -/
def processCsvRows : List CsvRow → CsvDB → CsvDB
  | [], db => db
  | r :: rest, db =>
    match processCsvRow r with
    | some p => processCsvRows rest (create db p)
    | none => processCsvRows rest db

/-! ## The document (JSON) path: `process_json_file` in `poi/tasks.py` -/

/-- The Python exceptions the pipeline can raise (`dbError` stands for the
database-level integrity error raised when a `None` reaches a non-null
column). -/
inductive PyErr where
  | keyError
  | typeError
  | valueError
  | attributeError
  | zeroDivisionError
  | dbError
deriving DecidableEq, Repr

/-- A value produced by `json.load` (note that Python's `json` module accepts
`Infinity`/`NaN` literals, producing non-finite floats). -/
inductive JVal where
  | jint (n : Int)
  | jfloat (x : PyFloat)
  | jstr (s : Str)
  | jbool (b : Bool)
  | jnull
  | jarr (xs : List JVal)
  | jobj (fields : List (Str × JVal))

def kId : Str := "id".data
def kName : Str := "name".data
def kCategory : Str := "category".data
def kCoordinates : Str := "coordinates".data
def kLatitude : Str := "latitude".data
def kLongitude : Str := "longitude".data
def kRatings : Str := "ratings".data

/-- Dict lookup.  Python's `dict` (and `json.load`) keeps the LAST
occurrence of a duplicated key, so later pairs win. -/
def lookupKey : List (Str × JVal) → Str → Option JVal
  | [], _ => none
  | (k, v) :: rest, key =>
    match lookupKey rest key with
    | some x => some x
    | none => if k = key then some v else none

/-- Python `v[key]`: `KeyError` when the key is absent, `TypeError` when `v`
is not a dict. -/
def subscript (v : JVal) (key : Str) : Except PyErr JVal :=
  match v with
  | .jobj fs =>
    match lookupKey fs key with
    | some x => .ok x
    | none => .error .keyError
  | _ => .error .typeError

/-- Python truthiness of a JSON value (`bool(v)`). -/
def JVal.truthy : JVal → Bool
  | .jint n => n != 0
  | .jfloat x =>
    match x with
    | .finite f => f.num != 0
    | _ => true
  | .jstr s => !s.isEmpty
  | .jbool b => b
  | .jnull => false
  | .jarr xs => !xs.isEmpty
  | .jobj fs => !fs.isEmpty

/-- A JSON value used as a number (`0 + v` during `sum`): ints, floats and
bools are numbers; everything else raises `TypeError`. -/
def JVal.asNumber : JVal → Except PyErr PyFloat
  | .jint n => .ok (.finite (Frac.ofInt n))
  | .jfloat x => .ok x
  | .jbool b => .ok (.finite (Frac.ofNat (if b then 1 else 0)))
  | _ => .error .typeError

/-- Python `sum(v)`.  Reachable non-list arguments are truthy ints, floats,
bools, strings or dicts, all of which raise `TypeError` (non-iterable, or
`0 + str`). -/
def pySum (v : JVal) : Except PyErr PyFloat :=
  match v with
  | .jarr xs =>
    xs.foldlM (fun acc x => (JVal.asNumber x).map (fun y => acc.add y))
      (PyFloat.finite (Frac.ofNat 0))
  | _ => .error .typeError

def pyLen (v : JVal) : Except PyErr Nat :=
  match v with
  | .jarr xs => pure xs.length
  | .jstr s => pure s.length
  | .jobj fs => pure fs.length
  | _ => .error .typeError

/-- Django's `FloatField` value coercion at save time (`float(value)`):
numbers pass through, strings are parsed, `None` hits the non-null column
(`dbError`), anything else raises `TypeError`. -/
def djangoFloat : JVal → Except PyErr PyFloat
  | .jint n => .ok (.finite (Frac.ofInt n))
  | .jfloat x => .ok x
  | .jbool b => .ok (.finite (Frac.ofNat (if b then 1 else 0)))
  | .jstr s =>
    match pyFloat s with
    | some x => .ok x
    | none => .error .valueError
  | .jnull => .error .dbError
  | .jarr _ => .error .typeError
  | .jobj _ => .error .typeError

/-- Line 90 of `poi/tasks.py`:
`sum(item[ratings]) / len(item[ratings]) if item[ratings] else 0`.
The conditional's guard is evaluated first; the empty array is falsy and
yields `0`. -/
def jsonRating (item : JVal) : Except PyErr PyFloat := do
  let r ← subscript item kRatings
  if r.truthy then
    let s ← pySum r
    let l ← pyLen r
    if l = 0 then Except.error .zeroDivisionError else pure (s.divNat l)
  else
    pure (.finite (Frac.ofNat 0))

/-- The fields of a persisted `PointOfInterest` row produced by the JSON
path.  `internal_id`, `name` and `category` keep the raw JSON value (the
`CharField` stores `str(value)`, an injective image on the shapes that
reach the database); the float columns carry the coerced values. -/
structure JsonPOI where
  internal_id : JVal
  name : JVal
  category : JVal
  latitude : PyFloat
  longitude : PyFloat
  ratings : PyFloat

/-- Lines 90–99 of `poi/tasks.py`: the per-item body of `process_json_file`.
The ratings expression is evaluated first (its own source line), then the
`create(...)` keyword arguments left to right, then the field coercions.
There is no `try` around this body: any error propagates (`Except.error`). -/
def processJsonItem (item : JVal) : Except PyErr JsonPOI := do
  let rating ← jsonRating item
  let idv ← subscript item kId
  let namev ← subscript item kName
  let coords ← subscript item kCoordinates
  let latv ← subscript coords kLatitude
  let lonv ← subscript coords kLongitude
  let catv ← subscript item kCategory
  let lat ← djangoFloat latv
  let lon ← djangoFloat lonv
  pure { internal_id := idv, name := namev, category := catv,
         latitude := lat, longitude := lon, ratings := rating }

abbrev JsonDB := List (Stored JsonPOI)

/-- The `for item in data` loop of `process_json_file`: records are created
one at a time; the first error aborts the loop, keeping everything already
created (no transaction, no per-record handler). -/
def processJsonItems : List JVal → JsonDB → JsonDB × Option PyErr
  | [], db => (db, none)
  | item :: rest, db =>
    match processJsonItem item with
    | .error e => (db, some e)
    | .ok p => processJsonItems rest (create db p)

/-! ## The tree (XML) path: `process_xml_file` in `poi/tasks.py` -/

/-- One direct child of the XML root.  Each field models
`poi_element.find(tag)`: `none` when no such child exists, `some t` when it
exists with `.text = t` (`t = none` for an empty element such as
`<pratings/>`, which ElementTree reports as `text is None`). -/
structure XmlElem where
  pid : Option (Option Str)
  pname : Option (Option Str)
  pcategory : Option (Option Str)
  platitude : Option (Option Str)
  plongitude : Option (Option Str)
  pratings : Option (Option Str)
deriving DecidableEq, Repr

/-- The fields of a persisted `PointOfInterest` row produced by the XML path
(text fields kept raw, float columns coerced). -/
structure XmlPOI where
  internal_id : Option Str
  name : Option Str
  category : Option Str
  latitude : PyFloat
  longitude : PyFloat
  ratings : PyFloat
deriving DecidableEq, Repr

/-- `poi_element.find(tag).text`: `AttributeError` when `find` returned
`None`. -/
def findText : Option (Option Str) → Except PyErr (Option Str)
  | none => .error .attributeError
  | some t => pure t

/-- `float(text)` where `text` came from `.text`: `TypeError` on `None`,
`ValueError` on an unparseable string. -/
def floatOfText : Option Str → Except PyErr PyFloat
  | none => .error .typeError
  | some s =>
    match pyFloat s with
    | some x => pure x
    | none => .error .valueError

/-- Lines 110–121 of `poi/tasks.py`: the per-element body of
`process_xml_file`.  `pratings.text.split(comma)` (`AttributeError` on a
`None` text), per-element `float` (`ValueError`), then
`sum(ratings) / len(ratings) if ratings else 0`, then the `create(...)`
arguments left to right.  No `try` around the body: errors propagate. -/
def processXmlElement (e : XmlElem) : Except PyErr XmlPOI := do
  let rt ← findText e.pratings
  let rs ← (match rt with
    | none => Except.error PyErr.attributeError
    | some s => pure s)
  let ratings ← (match parseEach (fun p => p) (splitOnComma rs) with
    | some xs => pure xs
    | none => Except.error PyErr.valueError)
  let avg := if ratings.isEmpty then PyFloat.finite (Frac.ofNat 0)
    else (pySumF ratings).divNat ratings.length
  let idt ← findText e.pid
  let namet ← findText e.pname
  let lat ← floatOfText (← findText e.platitude)
  let lon ← floatOfText (← findText e.plongitude)
  let catt ← findText e.pcategory
  pure { internal_id := idt, name := namet, category := catt,
         latitude := lat, longitude := lon, ratings := avg }

abbrev XmlDB := List (Stored XmlPOI)

/-- The `for poi_element in root` loop of `process_xml_file`: same shape as
the JSON loop — one create per element, first error aborts, no rollback. -/
def processXmlElems : List XmlElem → XmlDB → XmlDB × Option PyErr
  | [], db => (db, none)
  | e :: rest, db =>
    match processXmlElement e with
    | .error er => (db, some er)
    | .ok p => processXmlElems rest (create db p)

/-! ## Whole-run descriptions used by the idempotence claims -/

/-- The records the CSV loop persists, in order. -/
def csvRun (rows : List CsvRow) : List CsvPOI := rows.filterMap processCsvRow

/-- The records the JSON loop persists, in order, and the error that stopped
it (if any). -/
def jsonRun : List JVal → List JsonPOI × Option PyErr
  | [] => ([], none)
  | item :: rest =>
    match processJsonItem item with
    | .error e => ([], some e)
    | .ok p => ((jsonRun rest).1.cons p, (jsonRun rest).2)

/-- The records the XML loop persists, in order, and the error that stopped
it (if any). -/
def xmlRun : List XmlElem → List XmlPOI × Option PyErr
  | [] => ([], none)
  | e :: rest =>
    match processXmlElement e with
    | .error er => ([], some er)
    | .ok p => ((xmlRun rest).1.cons p, (xmlRun rest).2)

/-- Rows of a store, labelled with consecutive primary keys starting at
`k`. -/
def label {α : Type} (k : Nat) : List α → List (Stored α)
  | [] => []
  | p :: ps => ⟨k, p⟩ :: label (k + 1) ps

/-- Comma-join of a list of pieces (the shape of a source ratings cell). -/
def joinComma : List Str → Str
  | [] => []
  | [p] => p
  | p :: ps => p ++ ',' :: joinComma ps

/-- A string with no brace characters. -/
def braceFree (s : Str) : Prop := ∀ c ∈ s, isBrace c = false

/-- A ratings piece: no comma and no brace characters. -/
def clean (s : Str) : Prop := ∀ c ∈ s, c ≠ ',' ∧ isBrace c = false

instance cleanDecidable (s : Str) : Decidable (clean s) :=
  inferInstanceAs (Decidable (∀ c ∈ s, c ≠ ',' ∧ isBrace c = false))

/-- Two rows of a store at positions `i` and `n + i` carrying the same
record under distinct primary keys. -/
def dup2 {α : Type} (db : List (Stored α)) (n i : Nat) (p : α) : Prop :=
  db[i]? = some ⟨i, p⟩ ∧ db[n + i]? = some ⟨n + i, p⟩ ∧ i ≠ n + i

def sampleRow : CsvRow where
  poi_id := "1".data
  poi_name := "A".data
  poi_category := "C".data
  poi_latitude := "10.0".data
  poi_longitude := "20.0".data
  poi_ratings := ['{', '5', ',', '4', ',', '3', '}']

/-- A well-formed JSON entry (mirrors the repository's own test data). -/
def jItemA : JVal :=
  .jobj [(kId, .jint 1), (kName, .jstr "POI 1".data),
         (kCategory, .jstr "Category 1".data),
         (kCoordinates, .jobj [(kLatitude, .jfloat (.finite ⟨10, 1⟩)),
                               (kLongitude, .jfloat (.finite ⟨20, 1⟩))]),
         (kRatings, .jarr [.jint 5, .jint 4, .jint 3])]

/-- A second well-formed JSON entry. -/
def jItemB : JVal :=
  .jobj [(kId, .jint 2), (kName, .jstr "POI 2".data),
         (kCategory, .jstr "Category 2".data),
         (kCoordinates, .jobj [(kLatitude, .jfloat (.finite ⟨15, 1⟩)),
                               (kLongitude, .jfloat (.finite ⟨25, 1⟩))]),
         (kRatings, .jarr [.jint 2, .jint 3, .jint 4])]

/-- A JSON entry whose `ratings` key is missing: subscripting it raises
`KeyError`. -/
def jItemBad : JVal :=
  .jobj [(kId, .jint 3), (kName, .jstr "POI 3".data),
         (kCategory, .jstr "Category 3".data),
         (kCoordinates, .jobj [(kLatitude, .jfloat (.finite ⟨1, 1⟩)),
                               (kLongitude, .jfloat (.finite ⟨2, 1⟩))])]

/-- The record `jItemA` produces. -/
def jPoiA : JsonPOI where
  internal_id := .jint 1
  name := .jstr "POI 1".data
  category := .jstr "Category 1".data
  latitude := .finite ⟨10, 1⟩
  longitude := .finite ⟨20, 1⟩
  ratings := .finite ⟨12, 3⟩

/-- A well-formed XML POI element (`pratings = "5,4,3"`). -/
def xmlGoodA : XmlElem where
  pid := some (some "1".data)
  pname := some (some "POI 1".data)
  pcategory := some (some "Category 1".data)
  platitude := some (some "10.0".data)
  plongitude := some (some "20.0".data)
  pratings := some (some "5,4,3".data)

/-- An XML POI element whose `<pratings/>` is empty (ElementTree text
`None`); every other field is valid. -/
def xmlEmptyRatings : XmlElem where
  pid := some (some "2".data)
  pname := some (some "POI 2".data)
  pcategory := some (some "Category 2".data)
  platitude := some (some "15.0".data)
  plongitude := some (some "25.0".data)
  pratings := some none

/-- A second valid CSV row. -/
def sampleRowB : CsvRow where
  poi_id := "2".data
  poi_name := "B".data
  poi_category := "C2".data
  poi_latitude := "15.0".data
  poi_longitude := "25.0".data
  poi_ratings := ['{', '2', ',', '3', ',', '4', '}']

/-- A CSV row whose `poi_id` is not integer-parseable. -/
def rowBadId : CsvRow where
  poi_id := "invalid".data
  poi_name := "Invalid POI".data
  poi_category := "Category".data
  poi_latitude := "10.0".data
  poi_longitude := "20.0".data
  poi_ratings := ['{', '5', '}']

/-- A CSV row whose ratings string has no brace delimiters. -/
def rowNoList : CsvRow where
  poi_id := "5".data
  poi_name := "Malformed Ratings POI".data
  poi_category := "Category".data
  poi_latitude := "10.0".data
  poi_longitude := "20.0".data
  poi_ratings := "not_a_proper_list".data

/-- A CSV row whose latitude cell is the string `inf`, which Python's
`float()` parses to positive infinity. -/
def rowInfLat : CsvRow where
  poi_id := "7".data
  poi_name := "Infinite POI".data
  poi_category := "Category".data
  poi_latitude := "inf".data
  poi_longitude := "20.0".data
  poi_ratings := ['{', '5', ',', '4', ',', '3', '}']

/-- A CSV row whose ratings cell is `{1},{2}`: not a single brace-delimited
list, yet its first character is a brace and its last character is a
brace. -/
def rowTwoLists : CsvRow where
  poi_id := "8".data
  poi_name := "Sneaky POI".data
  poi_category := "Category".data
  poi_latitude := "10.0".data
  poi_longitude := "20.0".data
  poi_ratings := ['{', '1', '}', ',', '{', '2', '}']

/-- A JSON entry whose `ratings` is the empty array, all other fields
present. -/
def jItemEmptyRatings : JVal :=
  .jobj [(kId, .jint 4), (kName, .jstr "POI 4".data),
         (kCategory, .jstr "Category 4".data),
         (kCoordinates, .jobj [(kLatitude, .jfloat (.finite ⟨5, 1⟩)),
                               (kLongitude, .jfloat (.finite ⟨6, 1⟩))]),
         (kRatings, .jarr [])]

/-- A second well-formed XML POI element. -/
def xmlGoodB : XmlElem where
  pid := some (some "3".data)
  pname := some (some "POI 3".data)
  pcategory := some (some "Category 3".data)
  platitude := some (some "30.0".data)
  plongitude := some (some "40.0".data)
  pratings := some (some "2,3,4".data)

/-- The record `sampleRow` produces (`10.0` parses to the exact fraction
`100/10`). -/
def samplePoiA : CsvPOI where
  internal_id := 1
  name := "A".data
  category := "C".data
  latitude := .finite ⟨100, 10⟩
  longitude := .finite ⟨200, 10⟩
  ratings := .finite ⟨12, 3⟩

/-- The record `sampleRowB` produces. -/
def samplePoiB : CsvPOI where
  internal_id := 2
  name := "B".data
  category := "C2".data
  latitude := .finite ⟨150, 10⟩
  longitude := .finite ⟨250, 10⟩
  ratings := .finite ⟨9, 3⟩

/-- The record `jItemB` produces. -/
def jPoiB : JsonPOI where
  internal_id := .jint 2
  name := .jstr "POI 2".data
  category := .jstr "Category 2".data
  latitude := .finite ⟨15, 1⟩
  longitude := .finite ⟨25, 1⟩
  ratings := .finite ⟨9, 3⟩

/-- The record `xmlGoodA` produces. -/
def xmlPoiA : XmlPOI where
  internal_id := some "1".data
  name := some "POI 1".data
  category := some "Category 1".data
  latitude := .finite ⟨100, 10⟩
  longitude := .finite ⟨200, 10⟩
  ratings := .finite ⟨12, 3⟩

/-- An XML POI element whose `<pratings>` child carries the empty string as
text; every other field is valid. -/
def xmlEmptyStrRatings : XmlElem where
  pid := some (some "4".data)
  pname := some (some "POI 4".data)
  pcategory := some (some "Category 4".data)
  platitude := some (some "15.0".data)
  plongitude := some (some "25.0".data)
  pratings := some (some [])

/-! ## Helper lemmas -/

theorem splitOnComma_ne_nil (s : Str) : splitOnComma s ≠ [] := by
  cases s with
  | nil => simp [splitOnComma]
  | cons c rest =>
    simp only [splitOnComma]
    by_cases h : c = ','
    · simp [h]
    · simp only [if_neg h]
      cases splitOnComma rest <;> simp

theorem splitOnComma_no_comma (s : Str) (h : ∀ c ∈ s, c ≠ ',') :
    splitOnComma s = [s] := by
  induction s with
  | nil => rfl
  | cons c rest ih =>
    have hc : c ≠ ',' := h c (List.mem_cons_self ..)
    have hrest := ih (fun d hd => h d (List.mem_cons_of_mem _ hd))
    simp [splitOnComma, if_neg hc, hrest]

theorem splitOnComma_append (xs ys : Str) (h : ∀ c ∈ xs, c ≠ ',') :
    splitOnComma (xs ++ ',' :: ys) = xs :: splitOnComma ys := by
  induction xs with
  | nil => simp [splitOnComma]
  | cons c rest ih =>
    have hc : c ≠ ',' := h c (List.mem_cons_self ..)
    have hrest := ih (fun d hd => h d (List.mem_cons_of_mem _ hd))
    simp [splitOnComma, if_neg hc, hrest]

theorem dropWhile_all_false (p : Char → Bool) (s : Str)
    (h : ∀ c ∈ s, p c = false) : s.dropWhile p = s := by
  cases s with
  | nil => rfl
  | cons c rest => simp [List.dropWhile_cons, h c (List.mem_cons_self ..)]

theorem stripBraces_cons_open (t : Str) :
    stripBraces ('{' :: t) = stripBraces t := by
  simp [stripBraces, List.dropWhile_cons, isBrace]

theorem stripBraces_of_braceFree (s : Str) (h : braceFree s) :
    stripBraces s = s := by
  unfold stripBraces
  rw [dropWhile_all_false _ _ h,
    dropWhile_all_false _ _ (fun c hc => h c (List.mem_reverse.mp hc)),
    List.reverse_reverse]

theorem dropWhile_cons_false (p : Char → Bool) (c : Char) (s : Str)
    (h : p c = false) : List.dropWhile p (c :: s) = c :: s := by
  simp [List.dropWhile_cons, h]

theorem stripBraces_close (s : Str) (h : braceFree s) :
    stripBraces (s ++ ['}']) = s := by
  cases s with
  | nil => rfl
  | cons c cs =>
    have hc : isBrace c = false := h c (List.mem_cons_self ..)
    unfold stripBraces
    rw [List.cons_append, dropWhile_cons_false _ _ _ hc]
    rw [show ((c :: (cs ++ ['}'])).reverse) = '}' :: (c :: cs).reverse by simp]
    rw [List.dropWhile_cons]
    simp only [show isBrace '}' = true from rfl, if_true]
    rw [dropWhile_all_false _ _ (fun d hd => h d (List.mem_reverse.mp hd)),
      List.reverse_reverse]

theorem stripBraces_open (s : Str) (h : braceFree s) :
    stripBraces ('{' :: s) = s :=
  (stripBraces_cons_open s).trans (stripBraces_of_braceFree s h)

theorem stripBraces_open_close (s : Str) (h : braceFree s) :
    stripBraces ('{' :: s ++ ['}']) = s := by
  rw [List.cons_append, stripBraces_cons_open, stripBraces_close s h]

theorem split_join_tail (qs : List Str) (q : Str) (hq : clean q)
    (hqs : ∀ r ∈ qs, clean r) :
    (splitOnComma (joinComma (q :: qs) ++ ['}'])).map stripBraces = q :: qs := by
  induction qs generalizing q with
  | nil =>
    have hnc : ∀ c ∈ q ++ ['}'], c ≠ ',' := by
      intro c hc
      rcases List.mem_append.mp hc with h1 | h1
      · exact (hq c h1).1
      · simp at h1
        simp [h1]
    rw [show joinComma [q] = q from rfl, splitOnComma_no_comma _ hnc]
    simp [stripBraces_close q (fun c hc => (hq c hc).2)]
  | cons r rs ih =>
    have hr : clean r := hqs r (List.mem_cons_self ..)
    have hrs : ∀ x ∈ rs, clean x := fun x hx => hqs x (List.mem_cons_of_mem _ hx)
    have hshape : joinComma (q :: r :: rs) ++ ['}'] =
        q ++ ',' :: (joinComma (r :: rs) ++ ['}']) := by
      simp [joinComma]
    rw [hshape, splitOnComma_append _ _ (fun c hc => (hq c hc).1)]
    simp only [List.map_cons]
    rw [stripBraces_of_braceFree q (fun c hc => (hq c hc).2), ih r hr hrs]

theorem split_join (p : Str) (ps : List Str) (hp : clean p)
    (hps : ∀ q ∈ ps, clean q) :
    (splitOnComma ('{' :: joinComma (p :: ps) ++ ['}'])).map stripBraces =
      p :: ps := by
  cases ps with
  | nil =>
    have hnc : ∀ c ∈ '{' :: (p ++ ['}']), c ≠ ',' := by
      intro c hc
      rcases List.mem_cons.mp hc with h1 | h1
      · simp [h1]
      · rcases List.mem_append.mp h1 with h2 | h2
        · exact (hp c h2).1
        · simp at h2
          simp [h2]
    rw [show ('{' :: joinComma [p] ++ ['}']) = '{' :: (p ++ ['}']) from rfl,
      splitOnComma_no_comma _ hnc]
    simp only [List.map_cons, List.map_nil]
    rw [show ('{' :: (p ++ ['}'])) = '{' :: p ++ ['}'] by simp,
      stripBraces_open_close p (fun c hc => (hp c hc).2)]
  | cons r rs =>
    have hshape : '{' :: joinComma (p :: r :: rs) ++ ['}'] =
        ('{' :: p) ++ ',' :: (joinComma (r :: rs) ++ ['}']) := by
      simp [joinComma]
    have hnc : ∀ c ∈ '{' :: p, c ≠ ',' := by
      intro c hc
      rcases List.mem_cons.mp hc with h1 | h1
      · simp [h1]
      · exact (hp c h1).1
    rw [hshape, splitOnComma_append _ _ hnc]
    simp only [List.map_cons]
    rw [stripBraces_open p (fun c hc => (hp c hc).2),
      split_join_tail rs r (hps r (List.mem_cons_self ..))
        (fun x hx => hps x (List.mem_cons_of_mem _ hx))]

theorem parseEach_map_eq (f : Str → Str) (l : List Str) :
    parseEach f l = parseEach (fun p => p) (l.map f) := by
  induction l with
  | nil => rfl
  | cons p ps ih => simp [parseEach, ih]

theorem parseEach_forall₂ (parts : List Str) (fs : List Frac)
    (h : List.Forall₂ (fun p f => pyFloat p = some (.finite f)) parts fs) :
    parseEach (fun p => p) parts = some (fs.map PyFloat.finite) := by
  induction h with
  | nil => rfl
  | cons hpf _ ih => simp [parseEach, hpf, ih]

theorem PyFloat.add_finite (a b : Frac) :
    PyFloat.add (.finite a) (.finite b) = .finite (a.add b) := rfl

theorem foldl_add_finite (fs : List Frac) (a : Frac) :
    (fs.map PyFloat.finite).foldl PyFloat.add (.finite a) =
      .finite (fs.foldl Frac.add a) := by
  induction fs generalizing a with
  | nil => rfl
  | cons f fs ih => simp [PyFloat.add_finite, ih]

theorem Frac.val_add (a b : Frac) (ha : a.den ≠ 0) (hb : b.den ≠ 0) :
    (a.add b).val = a.val + b.val := by
  unfold Frac.add Frac.val
  have ha' : (a.den : ℚ) ≠ 0 := Nat.cast_ne_zero.mpr ha
  have hb' : (b.den : ℚ) ≠ 0 := Nat.cast_ne_zero.mpr hb
  push_cast
  field_simp
  try ring

theorem foldl_add_val (fs : List Frac) (a : Frac)
    (hs : ∀ f ∈ fs, f.den ≠ 0) (ha : a.den ≠ 0) :
    (fs.foldl Frac.add a).val = a.val + (fs.map Frac.val).sum ∧
      (fs.foldl Frac.add a).den ≠ 0 := by
  induction fs generalizing a with
  | nil => exact ⟨by simp, ha⟩
  | cons f fs ih =>
    have hf : f.den ≠ 0 := hs f (List.mem_cons_self ..)
    have hd : (a.add f).den ≠ 0 := Nat.mul_ne_zero ha hf
    have h2 := ih (a.add f) (fun g hg => hs g (List.mem_cons_of_mem _ hg)) hd
    refine ⟨?_, h2.2⟩
    rw [List.foldl_cons, h2.1, Frac.val_add a f ha hf]
    simp only [List.map_cons, List.sum_cons]
    ring

theorem pySumF_map_finite (fs : List Frac) (hs : ∀ f ∈ fs, f.den ≠ 0) :
    ∃ t : Frac, pySumF (fs.map PyFloat.finite) = .finite t ∧
      t.val = (fs.map Frac.val).sum ∧ t.den ≠ 0 := by
  refine ⟨fs.foldl Frac.add (Frac.ofNat 0), foldl_add_finite fs (Frac.ofNat 0),
    ?_, (foldl_add_val fs (Frac.ofNat 0) hs (by decide)).2⟩
  rw [(foldl_add_val fs (Frac.ofNat 0) hs (by decide)).1]
  simp [Frac.val, Frac.ofNat]

theorem divNat_finite (f : Frac) (n : Nat) :
    PyFloat.divNat (.finite f) n = .finite ⟨f.num, f.den * n⟩ := rfl

theorem divNat_val (f : Frac) (n : Nat) :
    (Frac.mk f.num (f.den * n)).val = f.val / (n : ℚ) := by
  unfold Frac.val
  push_cast
  rw [div_div]

theorem parseMantissa_den (s : Str) (f : Frac)
    (h : parseMantissa s = some f) : f.den ≠ 0 := by
  unfold parseMantissa at h
  split at h
  · cases hn : natOfDigits? s with
    | none => rw [hn] at h; cases h
    | some n =>
      rw [hn] at h
      injection h with h'
      rw [← h']
      exact Nat.one_ne_zero
  · split at h
    · injection h with h'
      rw [← h']
      exact pow_ne_zero _ (by decide)
    · cases h

theorem scale10_den (f : Frac) (e : Int) (h : f.den ≠ 0) :
    (f.scale10 e).den ≠ 0 := by
  cases e with
  | ofNat n => exact h
  | negSucc n => exact Nat.mul_ne_zero h (pow_ne_zero _ (by decide))

theorem parseNumber_den (s : Str) (f : Frac)
    (h : parseNumber s = some f) : f.den ≠ 0 := by
  unfold parseNumber at h
  split at h
  · exact parseMantissa_den _ _ h
  · split at h
    · injection h with h'
      rw [← h']
      exact scale10_den _ _ (parseMantissa_den _ _ (by assumption))
    · cases h

theorem pyFloat_finite_den (s : Str) (f : Frac)
    (h : pyFloat s = some (.finite f)) : f.den ≠ 0 := by
  simp only [pyFloat] at h
  split at h
  · split at h <;> cases h
  · split at h
    · cases h
    · cases hq : parseNumber (splitSign (stripWs s)).2 with
      | none => rw [hq] at h; cases h
      | some q =>
        rw [hq] at h
        injection h with h'
        injection h' with h''
        rw [← h'']
        split
        · show q.den ≠ 0
          exact parseNumber_den _ _ hq
        · exact parseNumber_den _ _ hq

theorem processCsvRows_append (xs ys : List CsvRow) (db : CsvDB) :
    processCsvRows (xs ++ ys) db = processCsvRows ys (processCsvRows xs db) := by
  induction xs generalizing db with
  | nil => rfl
  | cons r rs ih =>
    simp only [List.cons_append, processCsvRows]
    cases processCsvRow r <;> simp [ih]

theorem processCsvRows_skip (row : CsvRow) (h : processCsvRow row = none)
    (xs ys : List CsvRow) (db : CsvDB) :
    processCsvRows (xs ++ row :: ys) db = processCsvRows (xs ++ ys) db := by
  rw [processCsvRows_append, processCsvRows_append]
  simp only [processCsvRows, h]

theorem csvRun_length_of_valid (rows : List CsvRow)
    (h : ∀ r ∈ rows, (processCsvRow r).isSome) :
    (csvRun rows).length = rows.length := by
  induction rows with
  | nil => rfl
  | cons r rs ih =>
    obtain ⟨p, hp⟩ :=
      Option.isSome_iff_exists.mp (h r (List.mem_cons_self ..))
    have ih' := ih (fun x hx => h x (List.mem_cons_of_mem _ hx))
    have hstep : csvRun (r :: rs) = p :: csvRun rs := by
      simp [csvRun, List.filterMap_cons, hp]
    rw [hstep, List.length_cons, List.length_cons, ih']

theorem label_length {α : Type} (l : List α) (k : Nat) :
    (label k l).length = l.length := by
  induction l generalizing k with
  | nil => rfl
  | cons p ps ih => simp [label, ih]

theorem label_getElem? {α : Type} (l : List α) (k i : Nat) :
    (label k l)[i]? = (l[i]?).map (fun p => ⟨k + i, p⟩) := by
  induction l generalizing k i with
  | nil => simp [label]
  | cons p ps ih =>
    cases i with
    | zero => simp [label]
    | succ j =>
      simp only [label, List.getElem?_cons_succ, ih]
      rw [show k + 1 + j = k + (j + 1) by omega]

theorem processCsvRows_label (rows : List CsvRow) (db : CsvDB) :
    processCsvRows rows db = db ++ label db.length (csvRun rows) := by
  induction rows generalizing db with
  | nil => simp [processCsvRows, csvRun, label]
  | cons r rs ih =>
    simp only [processCsvRows, csvRun, List.filterMap_cons]
    cases h : processCsvRow r with
    | none => simpa [h, csvRun] using ih db
    | some p =>
      dsimp only
      rw [ih (create db p)]
      simp [create, label, csvRun]

theorem processJsonItems_run (items : List JVal) (db : JsonDB) :
    processJsonItems items db =
      (db ++ label db.length (jsonRun items).1, (jsonRun items).2) := by
  induction items generalizing db with
  | nil => simp [processJsonItems, jsonRun, label]
  | cons it rest ih =>
    simp only [processJsonItems, jsonRun]
    cases h : processJsonItem it with
    | error e => simp [label]
    | ok p =>
      dsimp only
      rw [ih (create db p)]
      simp [create, label]

theorem processXmlElems_run (elems : List XmlElem) (db : XmlDB) :
    processXmlElems elems db =
      (db ++ label db.length (xmlRun elems).1, (xmlRun elems).2) := by
  induction elems generalizing db with
  | nil => simp [processXmlElems, xmlRun, label]
  | cons e rest ih =>
    simp only [processXmlElems, xmlRun]
    cases h : processXmlElement e with
    | error er => simp [label]
    | ok p =>
      dsimp only
      rw [ih (create db p)]
      simp [create, label]

theorem processJsonItems_seq (its l : List JVal) (db db' : JsonDB)
    (h : processJsonItems its db = (db', none)) :
    processJsonItems (its ++ l) db = processJsonItems l db' := by
  induction its generalizing db with
  | nil =>
    simp only [processJsonItems] at h
    injection h with h1 h2
    rw [List.nil_append, h1]
  | cons it rest ih =>
    simp only [processJsonItems, List.cons_append] at h ⊢
    cases hit : processJsonItem it with
    | error e =>
      rw [hit] at h
      cases h
    | ok p =>
      rw [hit] at h
      exact ih (create db p) h

theorem processXmlElems_seq (es l : List XmlElem) (db db' : XmlDB)
    (h : processXmlElems es db = (db', none)) :
    processXmlElems (es ++ l) db = processXmlElems l db' := by
  induction es generalizing db with
  | nil =>
    simp only [processXmlElems] at h
    injection h with h1 h2
    rw [List.nil_append, h1]
  | cons e rest ih =>
    simp only [processXmlElems, List.cons_append] at h ⊢
    cases he : processXmlElement e with
    | error er =>
      rw [he] at h
      cases h
    | ok p =>
      rw [he] at h
      exact ih (create db p) h

theorem except_ok_bind {ε α β : Type} (a : α) (f : α → Except ε β) :
    (Except.ok a : Except ε α) >>= f = f a := rfl

theorem except_error_bind {ε α β : Type} (e : ε) (f : α → Except ε β) :
    (Except.error e : Except ε α) >>= f = Except.error e := rfl

/-! ## The claims -/

/-- C4: a tabular row whose `poi_ratings` string is not wrapped in brace
delimiters yields no persisted record, no exception escapes the batch (the
per-row processing is a total function), and the remaining rows of the batch
are processed exactly as they would be without this row. -/
theorem csv_unbraced_ratings_rejected (row : CsvRow)
    (h : bracesOk row.poi_ratings = false) :
    processCsvRow row = none ∧
    ∀ (xs ys : List CsvRow) (db : CsvDB),
      processCsvRows (xs ++ row :: ys) db = processCsvRows (xs ++ ys) db := by
  have hnone : processCsvRow row = none := by
    unfold processCsvRow
    cases pyInt row.poi_id <;> cases pyFloat row.poi_latitude <;>
      cases pyFloat row.poi_longitude <;> simp [parseRatings, h]
  exact ⟨hnone, fun xs ys db => processCsvRows_skip row hnone xs ys db⟩

/-- C4 witness: the repository's own test string `not_a_proper_list`, placed
between two valid rows. -/
theorem csv_unbraced_ratings_rejected_witness :
    processCsvRow rowNoList = none ∧
    processCsvRows ([sampleRow] ++ rowNoList :: [sampleRowB]) [] =
      processCsvRows ([sampleRow] ++ [sampleRowB]) [] := by
  have h := csv_unbraced_ratings_rejected rowNoList (by decide)
  exact ⟨h.1, h.2 [sampleRow] [sampleRowB] []⟩

/-- C6: a tabular batch of two valid rows around one row whose `poi_id` is
not integer-parseable persists exactly the two valid records (with
consecutive primary keys) — the bad row produces nothing and the batch is not
aborted. -/
theorem csv_invalid_id_row_skipped (xs ys : List CsvRow) (bad : CsvRow)
    (hlen : (xs ++ ys).length = 2)
    (hval : ∀ r ∈ xs ++ ys, (processCsvRow r).isSome)
    (hbad : pyInt bad.poi_id = none) :
    processCsvRow bad = none ∧
    processCsvRows (xs ++ bad :: ys) [] = processCsvRows (xs ++ ys) [] ∧
    (processCsvRows (xs ++ bad :: ys) []).length = 2 := by
  have hbn : processCsvRow bad = none := by
    unfold processCsvRow
    rw [hbad]
  have hskip := processCsvRows_skip bad hbn xs ys []
  refine ⟨hbn, hskip, ?_⟩
  rw [hskip, processCsvRows_label]
  simp only [List.nil_append, List.length_nil]
  rw [label_length, csvRun_length_of_valid _ hval, hlen]

/-- C6 witness: two valid rows around the row with id `invalid`; exactly the
two valid records are persisted. -/
theorem csv_invalid_id_row_skipped_witness :
    processCsvRow rowBadId = none ∧
    processCsvRows ([sampleRow] ++ rowBadId :: [sampleRowB]) [] =
      processCsvRows ([sampleRow] ++ [sampleRowB]) [] ∧
    (processCsvRows ([sampleRow] ++ rowBadId :: [sampleRowB]) []).length =
      2 :=
  csv_invalid_id_row_skipped [sampleRow] [sampleRowB] rowBadId (by decide)
    (by decide) (by decide)

theorem processJsonItem_coords (item : JVal) (q : JsonPOI)
    (h : processJsonItem item = .ok q) :
    ∃ coords latv lonv, subscript item kCoordinates = .ok coords ∧
      subscript coords kLatitude = .ok latv ∧
      subscript coords kLongitude = .ok lonv ∧
      djangoFloat latv = .ok q.latitude ∧ djangoFloat lonv = .ok q.longitude := by
  unfold processJsonItem at h
  cases h0 : jsonRating item with
  | error er => simp [h0, except_error_bind] at h
  | ok rating =>
    simp only [h0, except_ok_bind] at h
    cases h1 : subscript item kId with
    | error er => simp [h1, except_error_bind] at h
    | ok idv =>
      simp only [h1, except_ok_bind] at h
      cases h2 : subscript item kName with
      | error er => simp [h2, except_error_bind] at h
      | ok namev =>
        simp only [h2, except_ok_bind] at h
        cases h3 : subscript item kCoordinates with
        | error er => simp [h3, except_error_bind] at h
        | ok coords =>
          simp only [h3, except_ok_bind] at h
          cases h4 : subscript coords kLatitude with
          | error er => simp [h4, except_error_bind] at h
          | ok latv =>
            simp only [h4, except_ok_bind] at h
            cases h5 : subscript coords kLongitude with
            | error er => simp [h5, except_error_bind] at h
            | ok lonv =>
              simp only [h5, except_ok_bind] at h
              cases h6 : subscript item kCategory with
              | error er => simp [h6, except_error_bind] at h
              | ok catv =>
                simp only [h6, except_ok_bind] at h
                cases h7 : djangoFloat latv with
                | error er => simp [h7, except_error_bind] at h
                | ok lat =>
                  simp only [h7, except_ok_bind] at h
                  cases h8 : djangoFloat lonv with
                  | error er => simp [h8, except_error_bind] at h
                  | ok lon =>
                    simp only [h8, except_ok_bind, pure, Except.pure] at h
                    injection h with h'
                    refine ⟨coords, latv, lonv, rfl, h4, h5, ?_, ?_⟩
                    · rw [← h']
                      exact h7
                    · rw [← h']
                      exact h8

theorem processXmlElement_coords (e : XmlElem) (r : XmlPOI)
    (h : processXmlElement e = .ok r) :
    ∃ latt lont, findText e.platitude = .ok latt ∧
      findText e.plongitude = .ok lont ∧
      floatOfText latt = .ok r.latitude ∧ floatOfText lont = .ok r.longitude := by
  unfold processXmlElement at h
  cases h0 : findText e.pratings with
  | error er => simp [h0, except_error_bind] at h
  | ok rt =>
    simp only [h0, except_ok_bind] at h
    cases rt with
    | none => exact Except.noConfusion h
    | some rs =>
      simp only [pure, Except.pure, except_ok_bind] at h
      cases hp : parseEach (fun p => p) (splitOnComma rs) with
      | none => simp [hp, except_error_bind] at h
      | some ratings =>
        simp only [hp, except_ok_bind] at h
        cases h1 : findText e.pid with
        | error er => simp [h1, except_error_bind] at h
        | ok idt =>
          simp only [h1, except_ok_bind] at h
          cases h2 : findText e.pname with
          | error er => simp [h2, except_error_bind] at h
          | ok namet =>
            simp only [h2, except_ok_bind] at h
            cases h3 : findText e.platitude with
            | error er => simp [h3, except_error_bind] at h
            | ok latt =>
              simp only [h3, except_ok_bind] at h
              cases h4 : floatOfText latt with
              | error er => simp [h4, except_error_bind] at h
              | ok lat =>
                simp only [h4, except_ok_bind] at h
                cases h5 : findText e.plongitude with
                | error er => simp [h5, except_error_bind] at h
                | ok lont =>
                  simp only [h5, except_ok_bind] at h
                  cases h6 : floatOfText lont with
                  | error er => simp [h6, except_error_bind] at h
                  | ok lon =>
                    simp only [h6, except_ok_bind] at h
                    cases h7 : findText e.pcategory with
                    | error er => simp [h7, except_error_bind] at h
                    | ok catt =>
                      simp only [h7, except_ok_bind, pure, Except.pure] at h
                      injection h with h'
                      refine ⟨latt, lont, rfl, rfl, ?_, ?_⟩
                      · rw [← h']
                        exact h4
                      · rw [← h']
                        exact h6

/-- C5 (amended): in every source format a record is persisted only if its
latitude and longitude values convert to Python floats — which includes the
non-finite values; the persisted columns carry exactly the converted values.
(The original claim's "finite" requirement fails: see
`csv_accepts_infinite_latitude`.) -/
theorem coords_must_parse_for_persist (row : CsvRow) (p : CsvPOI)
    (item : JVal) (q : JsonPOI) (e : XmlElem) (r : XmlPOI)
    (hc : processCsvRow row = some p) (hj : processJsonItem item = .ok q)
    (hx : processXmlElement e = .ok r) :
    (pyFloat row.poi_latitude = some p.latitude ∧
      pyFloat row.poi_longitude = some p.longitude) ∧
    (∃ coords latv lonv, subscript item kCoordinates = .ok coords ∧
      subscript coords kLatitude = .ok latv ∧
      subscript coords kLongitude = .ok lonv ∧
      djangoFloat latv = .ok q.latitude ∧
      djangoFloat lonv = .ok q.longitude) ∧
    (∃ latt lont, findText e.platitude = .ok latt ∧
      findText e.plongitude = .ok lont ∧
      floatOfText latt = .ok r.latitude ∧
      floatOfText lont = .ok r.longitude) := by
  refine ⟨?_, processJsonItem_coords item q hj, processXmlElement_coords e r hx⟩
  unfold processCsvRow at hc
  cases hid : pyInt row.poi_id with
  | none => rw [hid] at hc; cases hc
  | some i =>
    rw [hid] at hc
    cases hla : pyFloat row.poi_latitude with
    | none => rw [hla] at hc; cases hc
    | some la =>
      rw [hla] at hc
      cases hlo : pyFloat row.poi_longitude with
      | none => rw [hlo] at hc; cases hc
      | some lo =>
        rw [hlo] at hc
        cases hr : parseRatings row.poi_ratings with
        | none => rw [hr] at hc; cases hc
        | some rs =>
          rw [hr] at hc
          injection hc with hc'
          rw [← hc']
          exact ⟨rfl, rfl⟩

/-- C5 witness: a valid row/entry/element in each format. -/
theorem coords_must_parse_for_persist_witness :
    (pyFloat sampleRow.poi_latitude = some samplePoiA.latitude ∧
      pyFloat sampleRow.poi_longitude = some samplePoiA.longitude) ∧
    (∃ coords latv lonv, subscript jItemA kCoordinates = .ok coords ∧
      subscript coords kLatitude = .ok latv ∧
      subscript coords kLongitude = .ok lonv ∧
      djangoFloat latv = .ok jPoiA.latitude ∧
      djangoFloat lonv = .ok jPoiA.longitude) ∧
    (∃ latt lont, findText xmlGoodA.platitude = .ok latt ∧
      findText xmlGoodA.plongitude = .ok lont ∧
      floatOfText latt = .ok xmlPoiA.latitude ∧
      floatOfText lont = .ok xmlPoiA.longitude) :=
  coords_must_parse_for_persist sampleRow samplePoiA jItemA jPoiA xmlGoodA
    xmlPoiA (by decide) rfl rfl

/-- C5 counterexample: the claim as stated is false — the tabular row whose
latitude cell is `inf` IS persisted, with a non-finite latitude column, since
Python's `float` parses `inf`. -/
theorem csv_accepts_infinite_latitude :
    (processCsvRow rowInfLat).map (fun p => p.latitude) = some PyFloat.pinf ∧
    PyFloat.pinf.isFinite = false := by decide

/-- C9: the tabular brace-format guard inspects only the first and the last
character of the ratings string, and braces are stripped from each
comma-separated piece individually, so the string `{1},{2}` — not a single
brace-delimited list — is accepted and persisted with the mean `3/2` of the
embedded numbers. -/
theorem csv_brace_check_first_last_only (row : CsvRow) (n : Int)
    (x y : PyFloat)
    (hr : row.poi_ratings = ['{', '1', '}', ',', '{', '2', '}'])
    (hid : pyInt row.poi_id = some n)
    (hla : pyFloat row.poi_latitude = some x)
    (hlo : pyFloat row.poi_longitude = some y) :
    (∀ s : Str,
      bracesOk s = ((s.head? == some '{') && (s.getLast? == some '}'))) ∧
    ∃ p : CsvPOI, processCsvRow row = some p ∧
      p.ratings.val? = some (3 / 2) := by
  refine ⟨fun s => rfl, ?_⟩
  refine ⟨⟨n, row.poi_name, row.poi_category, x, y, .finite ⟨3, 2⟩⟩, ?_, ?_⟩
  · unfold processCsvRow
    rw [hid, hla, hlo, hr,
      show parseRatings ['{', '1', '}', ',', '{', '2', '}'] =
        some [.finite ⟨1, 1⟩, .finite ⟨2, 1⟩] by decide]
    rfl
  · simp only [PyFloat.val?, Frac.val]
    norm_num

/-- C9 witness: the concrete row `rowTwoLists`. -/
theorem csv_brace_check_first_last_only_witness :
    ∃ p : CsvPOI, processCsvRow rowTwoLists = some p ∧
      p.ratings.val? = some (3 / 2) :=
  (csv_brace_check_first_last_only rowTwoLists 8 (.finite ⟨100, 10⟩)
    (.finite ⟨200, 10⟩) (by decide) (by decide) (by decide) (by decide)).2

/-- C2 (divergence witness for the code bug): `process_json_file` has no
per-record error boundary — an entry whose `ratings` key is missing raises
`KeyError` out of the whole task, and the valid sibling entry after it is
never persisted, even though that entry alone processes fine. -/
theorem json_record_error_halts_batch :
    processJsonItems [jItemA, jItemBad, jItemB] [] =
      ([⟨0, jPoiA⟩], some .keyError) ∧
    processJsonItem jItemB = .ok jPoiB := ⟨rfl, rfl⟩

/-- C3 (divergence witness for the code bug): an XML element whose
`<pratings/>` is empty is NOT persisted with rating `0` — ElementTree gives
`text = None`, `None.split` raises `AttributeError`, and the file's
remaining elements are lost; with an empty-string text the per-element
`float` raises `ValueError` instead.  The `if ratings else 0` default is
unreachable because `split` never returns an empty list. -/
theorem xml_empty_ratings_raises :
    processXmlElement xmlEmptyRatings = .error .attributeError ∧
    processXmlElems [xmlGoodA, xmlEmptyRatings, xmlGoodB] [] =
      ([⟨0, xmlPoiA⟩], some .attributeError) ∧
    processXmlElement xmlEmptyStrRatings = .error .valueError ∧
    ∀ s : Str, splitOnComma s ≠ [] :=
  ⟨rfl, rfl, rfl, splitOnComma_ne_nil⟩

/-- C7: a document entry whose `ratings` is the empty array, with all other
fields present and coordinate values float-coercible, is persisted with
rating `0` (the empty array is falsy, so the conditional yields `0`). -/
theorem json_empty_ratings_rating_zero (item idv namev coords latv lonv
    catv : JVal) (x y : PyFloat)
    (hr : subscript item kRatings = .ok (.jarr []))
    (hid : subscript item kId = .ok idv)
    (hn : subscript item kName = .ok namev)
    (hc : subscript item kCoordinates = .ok coords)
    (hla : subscript coords kLatitude = .ok latv)
    (hlo : subscript coords kLongitude = .ok lonv)
    (hcat : subscript item kCategory = .ok catv)
    (hx : djangoFloat latv = .ok x) (hy : djangoFloat lonv = .ok y) :
    processJsonItem item =
      .ok ⟨idv, namev, catv, x, y, .finite (Frac.ofNat 0)⟩ := by
  have hrate : jsonRating item = .ok (.finite (Frac.ofNat 0)) := by
    unfold jsonRating
    simp [hr, except_ok_bind, JVal.truthy, pure, Except.pure]
  unfold processJsonItem
  simp [hrate, hid, hn, hc, hla, hlo, hcat, hx, hy, except_ok_bind, pure,
    Except.pure]

/-- C7 witness: the concrete entry `jItemEmptyRatings`. -/
theorem json_empty_ratings_rating_zero_witness :
    processJsonItem jItemEmptyRatings =
      .ok ⟨.jint 4, .jstr "POI 4".data, .jstr "Category 4".data,
        .finite ⟨5, 1⟩, .finite ⟨6, 1⟩, .finite (Frac.ofNat 0)⟩ :=
  json_empty_ratings_rating_zero jItemEmptyRatings (.jint 4)
    (.jstr "POI 4".data) (.jobj [(kLatitude, .jfloat (.finite ⟨5, 1⟩)),
      (kLongitude, .jfloat (.finite ⟨6, 1⟩))])
    (.jfloat (.finite ⟨5, 1⟩)) (.jfloat (.finite ⟨6, 1⟩))
    (.jstr "Category 4".data) (.finite ⟨5, 1⟩) (.finite ⟨6, 1⟩)
    rfl rfl rfl rfl rfl rfl rfl rfl rfl

/-- C10: document and tree processing persist records one at a time in
source order with no rollback — when the entry after a valid prefix errors,
the prefix's records stay persisted, the error surfaces, and the entries
after the failure point are never processed. -/
theorem error_keeps_prefix_persisted (preJ postJ : List JVal) (badJ : JVal)
    (dbJ : JsonDB) (e1 : PyErr) (preX postX : List XmlElem) (badX : XmlElem)
    (dbX : XmlDB) (e2 : PyErr)
    (hJ : processJsonItems preJ [] = (dbJ, none))
    (hJbad : processJsonItem badJ = .error e1)
    (hX : processXmlElems preX [] = (dbX, none))
    (hXbad : processXmlElement badX = .error e2) :
    processJsonItems (preJ ++ badJ :: postJ) [] = (dbJ, some e1) ∧
    processXmlElems (preX ++ badX :: postX) [] = (dbX, some e2) := by
  constructor
  · rw [processJsonItems_seq preJ (badJ :: postJ) [] dbJ hJ]
    simp [processJsonItems, hJbad]
  · rw [processXmlElems_seq preX (badX :: postX) [] dbX hX]
    simp [processXmlElems, hXbad]

/-- C10 witness: one valid entry, one failing entry, one valid trailing
entry, in each of the two formats. -/
theorem error_keeps_prefix_persisted_witness :
    processJsonItems ([jItemA] ++ jItemBad :: [jItemB]) [] =
      ([⟨0, jPoiA⟩], some .keyError) ∧
    processXmlElems ([xmlGoodA] ++ xmlEmptyRatings :: [xmlGoodB]) [] =
      ([⟨0, xmlPoiA⟩], some .attributeError) :=
  error_keeps_prefix_persisted [jItemA] [jItemB] jItemBad [⟨0, jPoiA⟩]
    .keyError [xmlGoodA] [xmlGoodB] xmlEmptyRatings [⟨0, xmlPoiA⟩]
    .attributeError rfl rfl rfl rfl

theorem dup2_label {α : Type} (out : List α) (i : Nat)
    (hi : i < out.length) :
    ∃ p : α, dup2 (label 0 out ++ label out.length out) out.length i p := by
  refine ⟨out[i], ?_, ?_, ?_⟩
  · rw [List.getElem?_append_left (by rw [label_length]; exact hi),
      label_getElem?, List.getElem?_eq_getElem hi]
    simp
  · rw [List.getElem?_append_right (by rw [label_length]; omega)]
    rw [label_length]
    rw [show out.length + i - out.length = i by omega]
    rw [label_getElem?, List.getElem?_eq_getElem hi]
    simp
  · omega

/-- C8: ingestion is not idempotent — processing the same input twice (in
any of the three formats) appends a second copy of every record: for each
position `i` of the first pass's output, the store holds two rows with
identical source-derived fields and distinct `external_id` primary keys, and
no deduplication occurs. -/
theorem ingestion_not_idempotent (rows : List CsvRow) (items : List JVal)
    (elems : List XmlElem) (i j k : Nat)
    (_hJ : (jsonRun items).2 = none) (_hX : (xmlRun elems).2 = none)
    (hi : i < (csvRun rows).length) (hj : j < (jsonRun items).1.length)
    (hk : k < (xmlRun elems).1.length) :
    (∃ p : CsvPOI, dup2 (processCsvRows rows (processCsvRows rows []))
      (csvRun rows).length i p) ∧
    (∃ q : JsonPOI, dup2 (processJsonItems items
      (processJsonItems items []).1).1 (jsonRun items).1.length j q) ∧
    (∃ r : XmlPOI, dup2 (processXmlElems elems
      (processXmlElems elems []).1).1 (xmlRun elems).1.length k r) := by
  refine ⟨?_, ?_, ?_⟩
  · rw [processCsvRows_label rows []]
    simp only [List.nil_append, List.length_nil]
    rw [processCsvRows_label rows (label 0 (csvRun rows))]
    rw [label_length]
    exact dup2_label (csvRun rows) i hi
  · rw [processJsonItems_run items []]
    simp only [List.nil_append, List.length_nil]
    rw [processJsonItems_run items (label 0 (jsonRun items).1)]
    dsimp only
    rw [label_length]
    exact dup2_label (jsonRun items).1 j hj
  · rw [processXmlElems_run elems []]
    simp only [List.nil_append, List.length_nil]
    rw [processXmlElems_run elems (label 0 (xmlRun elems).1)]
    dsimp only
    rw [label_length]
    exact dup2_label (xmlRun elems).1 k hk

/-- C8 witness: one valid record per format, duplicated pair at position
`0`. -/
theorem ingestion_not_idempotent_witness :
    (∃ p : CsvPOI, dup2 (processCsvRows [sampleRow]
      (processCsvRows [sampleRow] [])) (csvRun [sampleRow]).length 0 p) ∧
    (∃ q : JsonPOI, dup2 (processJsonItems [jItemA]
      (processJsonItems [jItemA] []).1).1 (jsonRun [jItemA]).1.length 0 q) ∧
    (∃ r : XmlPOI, dup2 (processXmlElems [xmlGoodA]
      (processXmlElems [xmlGoodA] []).1).1
      (xmlRun [xmlGoodA]).1.length 0 r) :=
  ingestion_not_idempotent [sampleRow] [jItemA] [xmlGoodA] 0 0 0 rfl rfl
    (by decide) (by decide) (by decide)

theorem forall₂_den (parts : List Str) (fs : List Frac)
    (h : List.Forall₂ (fun p f => pyFloat p = some (.finite f)) parts fs) :
    ∀ f ∈ fs, f.den ≠ 0 := by
  induction h with
  | nil => intro f hf; cases hf
  | cons hpf _ ih =>
    intro f hf
    rcases List.mem_cons.mp hf with h1 | h1
    · exact h1 ▸ pyFloat_finite_den _ _ hpf
    · exact ih f h1

/-- C1: a tabular row whose ratings cell is a single brace-delimited
comma-separated list of parseable numbers (and whose id and coordinates
validate) is persisted with `rating` equal to the arithmetic mean of the
listed numbers, in source order. -/
theorem csv_rating_is_mean (row : CsvRow) (parts : List Str) (fs : List Frac)
    (hne : parts ≠ [])
    (hfmt : row.poi_ratings = '{' :: joinComma parts ++ ['}'])
    (hclean : ∀ p ∈ parts, clean p)
    (hparse : List.Forall₂ (fun p f => pyFloat p = some (.finite f)) parts fs)
    (hid : (pyInt row.poi_id).isSome)
    (hla : (pyFloat row.poi_latitude).isSome)
    (hlo : (pyFloat row.poi_longitude).isSome) :
    ∃ p : CsvPOI, processCsvRow row = some p ∧
      p.ratings.val? = some ((fs.map Frac.val).sum / (fs.length : ℚ)) := by
  obtain ⟨i, hi⟩ := Option.isSome_iff_exists.mp hid
  obtain ⟨la, hla'⟩ := Option.isSome_iff_exists.mp hla
  obtain ⟨lo, hlo'⟩ := Option.isSome_iff_exists.mp hlo
  have h1 : ('{' :: joinComma parts ++ ['}']).head? = some '{' := rfl
  have h2 : ('{' :: joinComma parts ++ ['}']).getLast? = some '}' := by
    rw [show ('{' :: joinComma parts ++ ['}']) =
      ('{' :: joinComma parts) ++ ['}'] by simp]
    exact List.getLast?_concat _
  have hbr : bracesOk row.poi_ratings = true := by
    rw [hfmt]
    unfold bracesOk
    rw [h1, h2]
    rfl
  have hsplit : (splitOnComma row.poi_ratings).map stripBraces = parts := by
    rw [hfmt]
    cases parts with
    | nil => exact absurd rfl hne
    | cons p ps =>
      exact split_join p ps (hclean p (List.mem_cons_self ..))
        (fun q hq => hclean q (List.mem_cons_of_mem _ hq))
  have hpr : parseRatings row.poi_ratings = some (fs.map PyFloat.finite) := by
    unfold parseRatings
    rw [hbr]
    simp only [if_true]
    rw [parseEach_map_eq, hsplit]
    exact parseEach_forall₂ parts fs hparse
  refine ⟨⟨i, row.poi_name, row.poi_category, la, lo,
    (pySumF (fs.map PyFloat.finite)).divNat (fs.map PyFloat.finite).length⟩,
    ?_, ?_⟩
  · unfold processCsvRow
    rw [hi, hla', hlo', hpr]
  · have hden := forall₂_den parts fs hparse
    obtain ⟨t, ht1, ht2, ht3⟩ := pySumF_map_finite fs hden
    show ((pySumF (fs.map PyFloat.finite)).divNat
      (fs.map PyFloat.finite).length).val? = _
    rw [ht1, List.length_map, divNat_finite]
    simp only [PyFloat.val?]
    rw [divNat_val t fs.length, ht2]

/-- C1 witness: the row with ratings `{5,4,3}` is persisted with rating
`4`. -/
theorem csv_rating_is_mean_witness :
    ∃ p : CsvPOI, processCsvRow sampleRow = some p ∧
      p.ratings.val? = some 4 := by
  obtain ⟨p, hp1, hp2⟩ := csv_rating_is_mean sampleRow
    ["5".data, "4".data, "3".data] [⟨5, 1⟩, ⟨4, 1⟩, ⟨3, 1⟩]
    (by decide) (by decide) (by decide)
    (.cons (by decide) (.cons (by decide) (.cons (by decide) .nil)))
    (by decide) (by decide) (by decide)
  refine ⟨p, hp1, ?_⟩
  rw [hp2]
  norm_num [Frac.val]

/-! ## Sanity checks: concrete evaluations of the embedded pipeline -/

example : pyInt " 42 ".data = some 42 := by decide
example : pyInt "invalid".data = none := by decide
example : pyFloat "10.5".data = some (.finite ⟨105, 10⟩) := by decide
example : pyFloat "inf".data = some .pinf := by decide
example : pyFloat "-Infinity".data = some .ninf := by decide
example : pyFloat "NaN".data = some .nan := by decide
example : pyFloat "1e2".data = some (.finite ⟨100, 1⟩) := by decide
example : pyFloat "".data = none := by decide
example : pyFloat "not_a_float".data = none := by decide
example : splitOnComma "a,b".data = ["a".data, "b".data] := by decide
example : splitOnComma [] = [[]] := by decide
example : parseRatings ['{', '5', ',', '4', ',', '3', '}'] =
    some [.finite ⟨5, 1⟩, .finite ⟨4, 1⟩, .finite ⟨3, 1⟩] := by decide
example : parseRatings "not_a_proper_list".data = none := by decide
example : parseRatings ['{', '1', '}', ',', '{', '2', '}'] =
    some [.finite ⟨1, 1⟩, .finite ⟨2, 1⟩] := by decide
example : (processCsvRow sampleRow).map (·.ratings) =
    some (.finite ⟨12, 3⟩) := by decide
example : processJsonItem jItemA = .ok jPoiA := rfl
example : processJsonItem jItemBad = .error .keyError := rfl
example : processJsonItems [jItemA, jItemBad, jItemB] [] =
    ([⟨0, jPoiA⟩], some .keyError) := rfl
example : (processXmlElement xmlGoodA).map (·.ratings) =
    .ok (.finite ⟨12, 3⟩) := rfl
example : processXmlElement xmlEmptyRatings = .error .attributeError := rfl
